import Mathlib

/-!
The window engine of the maintenance exporter.

A shallow embedding of `src/main.go`: the `MaintenanceWindow` record, its
methods `Task`, `setActive`, `setInactive`, `getGaugeValue`, the constructor
`NewMaintenanceWindow` and the start-up sequence of `main`.

Modelling conventions.

* A `*MaintenanceWindow` is an address (`Nat`) into `World.heap`; a pointer that
  may be `nil` is an `Option Nat`.
* A Go `map[string]string` is `Option (List (String × String))`: `none` is the
  `nil` map, `some es` an allocated map with entries `es`.
* `time.Time` and `time.Duration` are integers (nanoseconds).
* `float64(0)` and `float64(1)` are the rationals `0` and `1`.
* What the standard library, the cron scheduler, the metrics registry and the
  Go runtime decide (zone loading, duration parsing, job registration, next run
  times, gauge registration, map iteration order) is taken as a parameter, `Env`.
* `World.events` is a ghost trace: every log line, every write of a window's
  `gaugeValue` and every timer wait is appended to it in program order.
-/

set_option linter.dupNamespace false

namespace MaintenanceExporter

/-! ## Data model -/

/-- The entries of an allocated Go `map[string]string`, one entry per key. -/
abbrev Entries := List (String × String)

/-- Map read `l[k]` on the entries of a map. -/
def mapLookup : Entries → String → Option String
  | [], _ => none
  | (k', v) :: rest, k => if k' = k then some v else mapLookup rest k

/-- Map write `l[k] = v` on the entries of a map: the value under an existing key is
replaced, a new key gets a new entry. -/
def mapAssign : Entries → String → String → Entries
  | [], k, v => [(k, v)]
  | (k', v') :: rest, k, v =>
    if k' = k then (k, v) :: rest else (k', v') :: mapAssign rest k v

/-- A `*time.Location`, identified by the name `Location.String()` returns. -/
structure Location where
  name : String
deriving DecidableEq, Repr

/-- The struct `MaintenanceWindow` (main.go 53-62). `Job` is the identifier of the
scheduler job behind the `gocron.Job` interface value (`none` is the nil
interface), `Gauge` the name under which the `*metrics.Gauge` was registered. -/
structure MaintenanceWindow where
  Name : String
  Labels : Option Entries
  CronExpression : String
  Duration : Int
  Job : Option Nat
  Gauge : Option String
  gaugeValue : ℚ
  tz : Option Location

/-- The zero value of `MaintenanceWindow`, as `var m MaintenanceWindow` creates it. -/
def zeroWindow : MaintenanceWindow :=
  { Name := "", Labels := none, CronExpression := "", Duration := 0, Job := none,
    Gauge := none, gaugeValue := 0, tz := none }

/-- The zero value of `time.Time` (January 1, year 1, 00:00 UTC) in nanoseconds
relative to the Unix epoch. -/
def zeroTime : Int := -62135596800000000000

/-- The log statements of main.go that are emitted at the configured level. A line
carries the values it is built from; its text (the time layout, the second zone of a
report line, the rendering of a window by `String`) is not modelled. -/
inductive LogLine where
  | windowOpen (name : String) (endTime : Int)
  | nextRunError (err : String)
  | windowClosed (name : String) (nextRun : Int)
  | parseDurationError (err : String)
  | jobNextRunError (job : Nat) (err : String)
  | fatal (msg : String)
  | banner
  | failedToParse (err : String)
  | loaded (m : Option Nat)
  | starting
  | rule
  | nextRun (name : String) (t : Int)
  | serving (endpoint : String)
deriving DecidableEq, Repr

/-- Ghost trace entries. -/
inductive Event where
  | log (line : LogLine)
  | gaugeWrite (m : Nat) (v : ℚ)
  | sleep (d : Int)
deriving DecidableEq

/-- The process state the window engine reads and writes. -/
structure World where
  /-- the `MaintenanceWindow` values, by address -/
  heap : Nat → MaintenanceWindow
  /-- the next free address -/
  next : Nat
  /-- the default metric set: gauge name and the window whose `getGaugeValue` it calls -/
  gauges : List (String × Nat)
  /-- the jobs registered with the scheduler: job identifier and the window whose `Task` it runs -/
  jobs : List (Nat × Nat)
  /-- whether `s.Start()` has been called -/
  started : Bool
  /-- the wall clock -/
  now : Int
  events : List Event

/-- How a call ends: it returns, the Go runtime panics, or `log.Fatal` exits the process. -/
inductive Outcome (α : Type) where
  | ok (a : α) (w : World)
  | panic (msg : String) (w : World)
  | exit (code : Nat) (w : World)

/-- The process state in which a call ended. -/
def Outcome.world {α : Type} : Outcome α → World
  | .ok _ w => w
  | .panic _ w => w
  | .exit _ w => w

/-- Whether the call returned to its caller. -/
def Outcome.returned {α : Type} : Outcome α → Bool
  | .ok _ _ => true
  | _ => false

/-- Whether the call ended in a runtime panic. -/
def Outcome.panicked {α : Type} : Outcome α → Bool
  | .panic _ _ => true
  | _ => false

/-- Whether the call ended the process through `log.Fatal`. -/
def Outcome.exited {α : Type} : Outcome α → Bool
  | .exit _ _ => true
  | _ => false

/-- The collaborators of main.go that are not part of the repository. -/
structure Env where
  /-- the global `tz`, set by `init` (line 217) before `main` runs -/
  tz : Location
  /-- the result of `time.LoadLocation` -/
  LoadLocation : String → Except String Location
  /-- the result of `time.ParseDuration` -/
  ParseDuration : String → Except String Int
  /-- the error of `gocron.NewScheduler`, `none` when it succeeds -/
  NewScheduler : Option String
  /-- the error of `s.NewJob` for a cron definition string, `none` when the job is accepted -/
  NewJob : String → Option String
  /-- the result of `Job.NextRun` for a job at a clock reading -/
  NextRun : Nat → Int → Except String Int
  /-- the panic of `metrics.NewGauge` for a metric set and a name, `none` when it registers -/
  NewGauge : List (String × Nat) → String → Option String
  /-- the order in which `range` visits the entries of a map -/
  rangeOrder : Entries → Entries

/-- An environment is admissible when `range` visits every entry of a map exactly once. -/
def Env.RangeVisitsAll (env : Env) : Prop :=
  ∀ es : Entries, (env.rangeOrder es).Perm es

/-! ## Logging and timers -/

/-- The statements `log.Println`, `log.Printf`: one line is written. -/
def logPrint (w : World) (line : LogLine) : World :=
  { w with events := w.events ++ [Event.log line] }

/-- The statement `log.Tracef`: `init` sets the level to `InfoLevel` (line 222), so a
trace statement writes nothing. -/
def logTracef (w : World) (_msg : String) : World := w

/-- The receive `<-time.After(d)`: the activation is suspended until the timer fires,
after `d` (at once when `d` is not positive). -/
def timeAfter (w : World) (d : Int) : World :=
  { w with now := w.now + max d 0, events := w.events ++ [Event.sleep d] }

/-- Field update of the window at address `m`. -/
def World.modify (w : World) (m : Nat) (f : MaintenanceWindow → MaintenanceWindow) : World :=
  { w with heap := Function.update w.heap m (f (w.heap m)) }

/-! ## Signal state (main.go 104-117) -/

/-- Method `setActive` (main.go 104-107). -/
def setActive (w : World) (m : Nat) : World :=
  let w := logTracef w "setActive"
  let w := w.modify m (fun x => { x with gaugeValue := 1 })
  { w with events := w.events ++ [Event.gaugeWrite m 1] }

/-- Method `setInactive` (main.go 109-112). -/
def setInactive (w : World) (m : Nat) : World :=
  let w := logTracef w "setInactive"
  let w := w.modify m (fun x => { x with gaugeValue := 0 })
  { w with events := w.events ++ [Event.gaugeWrite m 0] }

/-- Method `getGaugeValue` (main.go 114-117): the value read and the state after the read. -/
def getGaugeValue (w : World) (m : Nat) : ℚ × World :=
  let w := logTracef w "getGaugeValue"
  ((w.heap m).gaugeValue, w)

/-! ## The window controller (main.go 66-85) -/

/-- Method `Task`, lines 68-72: from the trigger to the `select`. -/
def Task.fire (w : World) (m : Nat) : World :=
  let endTime := w.now + (w.heap m).Duration
  let w := logPrint w (LogLine.windowOpen (w.heap m).Name endTime)
  setActive w m

/-- Method `Task`, lines 75-82: the body of the `case`, run when the timer has fired. -/
def Task.resume (env : Env) (w : World) (m : Nat) : Outcome Unit :=
  match (w.heap m).Job with
  | none => Outcome.panic "invalid memory address or nil pointer dereference" w
  | some job =>
    let r : Int × World :=
      match env.NextRun job w.now with
      | Except.ok t => (t, w)
      | Except.error err => (zeroTime, logPrint w (LogLine.nextRunError err))
    let w := logPrint r.2 (LogLine.windowClosed (w.heap m).Name r.1)
    Outcome.ok () (setInactive w m)

/-- Method `Task` (main.go 66-85): one activation. -/
def Task (env : Env) (w : World) (m : Nat) : Outcome Unit :=
  let w := Task.fire w m
  let w := timeAfter w (w.heap m).Duration
  Task.resume env w m

/-- The writes and waits of a trace, log lines left out. -/
def signalTrace : List Event → List Event
  | [] => []
  | Event.log _ :: rest => signalTrace rest
  | e :: rest => e :: signalTrace rest

/-! ## Construction (main.go 121-183) -/

/-- Method `(*time.Location).String`: the name of the zone; the nil location reads as UTC. -/
def locString : Option Location → String
  | some z => z.name
  | none => "UTC"

/-- The loop of lines 146-155 over the entries in the order `range` visits them:
`len` is `len(l)`, `count` and `mname` are the loop variables. -/
def gaugeNameLoop (len : Nat) : Entries → Nat → String → String
  | [], _, mname => mname
  | (k, v) :: rest, count, mname =>
    let count := count + 1
    let mname := mname ++ (k ++ "=\"" ++ v ++ "\"")
    let mname := if count = len then mname ++ "\x7d" else mname ++ ","
    gaugeNameLoop len rest count mname

/-- Function `NewMaintenanceWindow` (main.go 121-183). The result is the pair
`(*MaintenanceWindow, error)`. -/
def NewMaintenanceWindow (env : Env) (w : World) (c d n cfgTz : String)
    (l : Option Entries) : Outcome (Option Nat × Option String) :=
  -- line 126: l["name"] = n
  match l with
  | none => Outcome.panic "assignment to entry in nil map" w
  | some l0 =>
    let l1 := mapAssign l0 "name" n
    -- line 129: var m MaintenanceWindow
    let m := w.next
    let w := { w with heap := Function.update w.heap m zeroWindow, next := m + 1 }
    -- lines 131-134
    let w := w.modify m (fun x => { x with Name := n })
    let w := w.modify m (fun x => { x with Labels := some l1 })
    let w := w.modify m (fun x => { x with CronExpression := c })
    let w := w.modify m (fun x => { x with tz := some env.tz })
    -- lines 135-140: `m.tz, err = time.LoadLocation(cfgTz)`, then the test of `err`
    let r : Option String × World :=
      if cfgTz ≠ "" then
        match env.LoadLocation cfgTz with
        | Except.ok z => (none, w.modify m (fun x => { x with tz := some z }))
        | Except.error err => (some err, w.modify m (fun x => { x with tz := none }))
      else (none, w)
    match r with
    | (some err, w) => Outcome.exit 1 (logPrint w (LogLine.fatal err))
    | (none, w) =>
      -- line 141: m.Labels and l are the same map
      let l2 := mapAssign l1 "configured_timezone" (locString (w.heap m).tz)
      let w := w.modify m (fun x => { x with Labels := some l2 })
      -- lines 145-155
      let mname := gaugeNameLoop l2.length (env.rangeOrder l2) 0 "maintenance_active\x7b"
      -- line 157
      let w := setInactive w m
      -- line 158
      match env.NewGauge w.gauges mname with
      | some msg => Outcome.panic msg w
      | none =>
        let w := { w with gauges := w.gauges ++ [(mname, m)] }
        let w := w.modify m (fun x => { x with Gauge := some mname })
        -- lines 160-164
        match env.ParseDuration d with
        | Except.error err =>
          let w := w.modify m (fun x => { x with Duration := 0 })
          let w := logPrint w (LogLine.parseDurationError err)
          Outcome.ok (none, some err) w
        | Except.ok dur =>
          let w := w.modify m (fun x => { x with Duration := dur })
          -- lines 166-172
          let cronString := "CRON_TZ=" ++ locString (w.heap m).tz ++ " " ++ c
          match env.NewJob cronString with
          | some err => Outcome.exit 1 (logPrint w (LogLine.fatal err))
          | none =>
            let job := w.jobs.length
            let w := { w with jobs := w.jobs ++ [(job, m)] }
            -- lines 173-177
            match env.NextRun job w.now with
            | Except.error err =>
              let w := logPrint w (LogLine.jobNextRunError job err)
              Outcome.ok (none, some err) w
            | Except.ok _ =>
              -- lines 178-181
              let w := logTracef w "Scheduled job"
              let w := w.modify m (fun x => { x with Job := some job })
              Outcome.ok (some m, none) w

/-! ## Start-up (main.go 226-276) -/

/-- The struct `MaintenanceWindowConfig` (main.go 34-40). -/
structure MaintenanceWindowConfig where
  Name : String
  Duration : String
  Labels : Option Entries
  Cron : String
  Timezone : String

/-- The struct `ExporterConfig` (main.go 25-30). -/
structure ExporterConfig where
  Addr : String
  Timezone : String
  LogFormat : String
  ExposeProcessMetrics : String

/-- The struct `Config` (main.go 43-46). -/
structure Config where
  Config : ExporterConfig
  Windows : List MaintenanceWindowConfig

/-- The loop of lines 235-251; `acc` is the slice `maintenanceWindows`. Line 249 formats
`m` with `%v` also when `m` is nil: `fmt` recovers the panic of `String` on a nil
pointer and prints `<nil>`, so the line is written and the loop goes on to line 250. -/
def constructWindows (env : Env) :
    World → List MaintenanceWindowConfig → List (Option Nat) → Outcome (List (Option Nat))
  | w, [], acc => Outcome.ok acc w
  | w, x :: rest, acc =>
    match NewMaintenanceWindow env w x.Cron x.Duration x.Name x.Timezone x.Labels with
    | Outcome.panic msg w => Outcome.panic msg w
    | Outcome.exit code w => Outcome.exit code w
    | Outcome.ok (m, err) w =>
      -- lines 245-247
      let w := match err with
        | some e => logPrint w (LogLine.failedToParse e)
        | none => w
      -- lines 249-250
      let w := logPrint w (LogLine.loaded m)
      constructWindows env w rest (acc ++ [m])

/-- The loop of lines 257-271 over the slice `maintenanceWindows`. -/
def reportNextRuns (env : Env) : World → List (Option Nat) → Outcome Unit
  | w, [] => Outcome.ok () w
  | w, none :: _ => Outcome.panic "invalid memory address or nil pointer dereference" w
  | w, some m :: rest =>
    match (w.heap m).Job with
    | none => Outcome.panic "invalid memory address or nil pointer dereference" w
    | some job =>
      match env.NextRun job w.now with
      | Except.error err => Outcome.exit 1 (logPrint w (LogLine.fatal err))
      | Except.ok t => reportNextRuns env (logPrint w (LogLine.nextRun (w.heap m).Name t)) rest

/-- Function `main` (main.go 226-276), up to the point where the HTTP handlers are
installed; the result is the slice `maintenanceWindows`. -/
def main (env : Env) (w : World) (c : Config) : Outcome (List (Option Nat)) :=
  let w := logPrint w LogLine.banner
  match env.NewScheduler with
  | some err => Outcome.exit 1 (logPrint w (LogLine.fatal err))
  | none =>
    match constructWindows env w c.Windows [] with
    | Outcome.panic msg w => Outcome.panic msg w
    | Outcome.exit code w => Outcome.exit code w
    | Outcome.ok maintenanceWindows w =>
      let w := logPrint w LogLine.starting
      let w := { w with started := true }
      let w := logPrint w LogLine.rule
      match reportNextRuns env w maintenanceWindows with
      | Outcome.panic msg w => Outcome.panic msg w
      | Outcome.exit code w => Outcome.exit code w
      | Outcome.ok _ w =>
        let w := logPrint w LogLine.rule
        let w := logPrint w (LogLine.serving "metrics")
        let w := logPrint w (LogLine.serving "readiness")
        let w := logPrint w (LogLine.serving "liveness")
        Outcome.ok maintenanceWindows w

/-! ## The stages of the construction, named -/

/-- The zone that lines 134-140 leave in `m.tz`, or the error handed to `log.Fatal`. -/
def resolvedZone (env : Env) (cfgTz : String) : Except String Location :=
  if cfgTz ≠ "" then env.LoadLocation cfgTz else Except.ok env.tz

/-- The entries of the label map after the writes of lines 126 and 141. -/
def finalLabels (l0 : Entries) (n : String) (z : Location) : Entries :=
  mapAssign (mapAssign l0 "name" n) "configured_timezone" z.name

/-- The gauge name that lines 145-155 build. -/
def builtGaugeName (env : Env) (l0 : Entries) (n : String) (z : Location) : String :=
  gaugeNameLoop (finalLabels l0 n z).length (env.rangeOrder (finalLabels l0 n z)) 0
    "maintenance_active\x7b"

/-- The cron definition string of line 166. -/
def cronDefinition (z : Location) (c : String) : String :=
  "CRON_TZ=" ++ z.name ++ " " ++ c

/-- The window at line 157, after `setInactive`. -/
def windowAtGauge (c n : String) (l0 : Entries) (z : Location) : MaintenanceWindow :=
  { Name := n, Labels := some (finalLabels l0 n z), CronExpression := c, Duration := 0,
    Job := none, Gauge := none, gaugeValue := 0, tz := some z }

/-! ## Reading a trace and stating the naming convention -/

/-- The gauge writes of a trace, in order. -/
def gaugeWrites : List Event → List (Nat × ℚ)
  | [] => []
  | Event.gaugeWrite m v :: rest => (m, v) :: gaugeWrites rest
  | _ :: rest => gaugeWrites rest

/-- One label of a gauge name: the key, an equals sign and the quoted value. -/
def labelPair (e : String × String) : String :=
  e.1 ++ "=\"" ++ e.2 ++ "\""

/-- Strings joined with commas. -/
def joinComma : List String → String
  | [] => ""
  | [a] => a
  | a :: b :: rest => a ++ "," ++ joinComma (b :: rest)

/-- The gauge name over a list of labels in the given order. -/
def gaugeNameOf (es : Entries) : String :=
  "maintenance_active\x7b" ++ joinComma (es.map labelPair) ++ "\x7d"

/-- The keys of a list of labels are in strictly increasing lexicographic order. -/
def keysSorted : Entries → Bool
  | [] => true
  | [_] => true
  | a :: b :: rest => decide (a.1.toList < b.1.toList) && keysSorted (b :: rest)

/-- The value a call returned, if it returned. -/
def Outcome.value {α : Type} : Outcome α → Option α
  | .ok a _ => some a
  | _ => none

/-- The window names of the start-up report lines of a trace, in order. -/
def reportedWindows : List Event → List String
  | [] => []
  | Event.log (LogLine.nextRun name _) :: rest => name :: reportedWindows rest
  | _ :: rest => reportedWindows rest

/-! ## Concrete states and environments for the examples -/

/-- The process state when `main` starts: nothing allocated, registered or logged. -/
def World.initial : World :=
  { heap := fun _ => zeroWindow, next := 0, gauges := [], jobs := [], started := false,
    now := 0, events := [] }

/-- A table of answers of the collaborators at the inputs of the examples: the zones
`UTC` and `Europe/Amsterdam` load, the durations `10s` and `0s` parse, every job is
accepted and has a next run one minute ahead, every gauge registers, and `range` visits
the entries in the order in which they were written. -/
def exampleEnv : Env :=
  { tz := { name := "UTC" },
    LoadLocation := fun name =>
      if name = "UTC" then Except.ok { name := "UTC" }
      else if name = "Europe/Amsterdam" then Except.ok { name := "Europe/Amsterdam" }
      else Except.error ("unknown time zone " ++ name),
    ParseDuration := fun s =>
      if s = "10s" then Except.ok 10000000000
      else if s = "0s" then Except.ok 0
      else Except.error ("time: invalid duration " ++ s),
    NewScheduler := none,
    NewJob := fun _ => none,
    NextRun := fun _ now => Except.ok (now + 60000000000),
    NewGauge := fun _ _ => none,
    rangeOrder := fun es => es }

/-- The table `exampleEnv` with a scheduler that rejects every cron definition. -/
def rejectingEnv : Env :=
  { exampleEnv with NewJob := fun cron => some ("gocron: CronJob: crontab parse failure: " ++ cron) }

/-- The table `exampleEnv` with a scheduler whose next-run lookups all fail. -/
def lookupFailsEnv : Env :=
  { exampleEnv with NextRun := fun _ _ => Except.error "gocron: job not found" }

/-- The table `exampleEnv` with a `range` that visits the entries in the opposite order. -/
def reversedEnv : Env :=
  { exampleEnv with rangeOrder := fun es => es.reverse }

/-- A process state with one constructed window at address `0`: job `0`, ten seconds,
signal state `v`. -/
def oneWindow (v : ℚ) : World :=
  { World.initial with
    heap := Function.update World.initial.heap 0
      { zeroWindow with Name := "db-maint", Duration := 10000000000, Job := some 0,
                        gaugeValue := v, tz := some { name := "UTC" } },
    next := 1 }

/-- A process state with two constructed windows on the same cron line, as in scenario B:
`db-maint` at address `0` (ten seconds) and `backup` at address `1` (thirty seconds), both
with signal state `v`. -/
def twoWindows (v : ℚ) : World :=
  { World.initial with
    heap := Function.update (oneWindow v).heap 1
      { zeroWindow with Name := "backup", Duration := 30000000000, Job := some 1,
                        gaugeValue := v, tz := some { name := "UTC" } },
    next := 2 }

/-- The window definition of scenario A. -/
def dbMaint : MaintenanceWindowConfig :=
  { Name := "db-maint", Duration := "10s", Labels := some [("team", "dba")],
    Cron := "0 */1 * * * *", Timezone := "" }

/-- A window definition whose duration does not parse. -/
def badDuration : MaintenanceWindowConfig :=
  { Name := "broken", Duration := "abc", Labels := some [], Cron := "0 */1 * * * *",
    Timezone := "" }

/-- A window definition without a `labels` key: the decoded map is nil. -/
def noLabels : MaintenanceWindowConfig :=
  { Name := "bare", Duration := "10s", Labels := none, Cron := "0 */1 * * * *",
    Timezone := "" }

/-- A window definition whose timezone does not load. -/
def badZone : MaintenanceWindowConfig :=
  { Name := "lost", Duration := "10s", Labels := some [], Cron := "0 */1 * * * *",
    Timezone := "Invalid/Zone" }

/-- The exporter settings used in the examples. -/
def exampleExporter : ExporterConfig :=
  { Addr := ":9099", Timezone := "UTC", LogFormat := "text", ExposeProcessMetrics := "false" }

/-! ## Lemmas on maps -/

theorem mapLookup_mapAssign_self (l : Entries) (k v : String) :
    mapLookup (mapAssign l k v) k = some v := by
  induction l with
  | nil => simp [mapAssign, mapLookup]
  | cons hd tl ih =>
    obtain ⟨k', v'⟩ := hd
    by_cases h : k' = k
    · simp [mapAssign, mapLookup, h]
    · simp [mapAssign, mapLookup, h, ih]

theorem mapLookup_mapAssign_ne (l : Entries) (k v k' : String) (hne : k' ≠ k) :
    mapLookup (mapAssign l k v) k' = mapLookup l k' := by
  induction l with
  | nil =>
    have : ¬ k = k' := fun h => hne h.symm
    simp [mapAssign, mapLookup, this]
  | cons hd tl ih =>
    obtain ⟨k0, v0⟩ := hd
    by_cases h : k0 = k
    · subst h
      have : ¬ k0 = k' := fun h => hne h.symm
      simp [mapAssign, mapLookup, this]
    · by_cases h' : k0 = k'
      · subst h'
        simp [mapAssign, mapLookup, h]
      · simp [mapAssign, mapLookup, h, h', ih]

theorem mapAssign_ne_nil (l : Entries) (k v : String) : mapAssign l k v ≠ [] := by
  cases l with
  | nil => simp [mapAssign]
  | cons hd tl =>
    obtain ⟨k', v'⟩ := hd
    by_cases h : k' = k <;> simp [mapAssign, h]

theorem mem_keys_mapAssign (l : Entries) (k v x : String) :
    x ∈ (mapAssign l k v).map Prod.fst ↔ x ∈ l.map Prod.fst ∨ x = k := by
  induction l with
  | nil => simp [mapAssign]
  | cons hd tl ih =>
    obtain ⟨k', v'⟩ := hd
    by_cases h : k' = k
    · subst h
      simp only [mapAssign, if_true, List.map_cons, List.mem_cons]
      tauto
    · simp only [mapAssign, h, if_false, List.map_cons, List.mem_cons, ih]
      tauto

theorem nodup_keys_mapAssign (l : Entries) (k v : String)
    (h : (l.map Prod.fst).Nodup) : ((mapAssign l k v).map Prod.fst).Nodup := by
  induction l with
  | nil => simp [mapAssign]
  | cons hd tl ih =>
    obtain ⟨k', v'⟩ := hd
    simp only [List.map_cons, List.nodup_cons] at h
    by_cases hk : k' = k
    · subst hk
      simp only [mapAssign, if_true, List.map_cons, List.nodup_cons]
      exact h
    · simp only [mapAssign, hk, if_false, List.map_cons, List.nodup_cons]
      refine ⟨?_, ih h.2⟩
      intro hmem
      rcases (mem_keys_mapAssign tl k v k').1 hmem with h1 | h1
      · exact h.1 h1
      · exact hk h1

/-! ## Lemmas on the signal state -/

theorem heap_setActive (w : World) (m x : Nat) :
    (setActive w m).heap x =
      if x = m then { w.heap m with gaugeValue := 1 } else w.heap x := by
  by_cases h : x = m
  · subst h
    simp [setActive, logTracef, World.modify]
  · simp [setActive, logTracef, World.modify, h]

theorem heap_setInactive (w : World) (m x : Nat) :
    (setInactive w m).heap x =
      if x = m then { w.heap m with gaugeValue := 0 } else w.heap x := by
  by_cases h : x = m
  · subst h
    simp [setInactive, logTracef, World.modify]
  · simp [setInactive, logTracef, World.modify, h]

theorem heap_Task_fire (w : World) (m x : Nat) :
    (Task.fire w m).heap x =
      if x = m then { w.heap m with gaugeValue := 1 } else w.heap x := by
  simp [Task.fire, heap_setActive, logPrint]

theorem events_Task_fire (w : World) (m : Nat) :
    (Task.fire w m).events =
      w.events ++ [Event.log (LogLine.windowOpen (w.heap m).Name (w.now + (w.heap m).Duration)),
        Event.gaugeWrite m 1] := by
  simp [Task.fire, setActive, logTracef, World.modify, logPrint]

theorem signalTrace_append (xs ys : List Event) :
    signalTrace (xs ++ ys) = signalTrace xs ++ signalTrace ys := by
  induction xs with
  | nil => rfl
  | cons e tl ih => cases e <;> simp [signalTrace, ih]

theorem gaugeWrites_append (xs ys : List Event) :
    gaugeWrites (xs ++ ys) = gaugeWrites xs ++ gaugeWrites ys := by
  induction xs with
  | nil => rfl
  | cons e tl ih => cases e <;> simp [gaugeWrites, ih]

/-- The outcome of `Task` on a window whose job handle is set, spelled out. -/
theorem Task_eq (env : Env) (w : World) (m job : Nat) (hjob : (w.heap m).Job = some job) :
    Task env w m =
      Outcome.ok ()
        (setInactive
          (logPrint
            (match env.NextRun job (w.now + max (w.heap m).Duration 0) with
              | Except.ok t => (t, timeAfter (Task.fire w m) (w.heap m).Duration)
              | Except.error err =>
                (zeroTime, logPrint (timeAfter (Task.fire w m) (w.heap m).Duration)
                  (LogLine.nextRunError err))).2
            (LogLine.windowClosed (w.heap m).Name
              (match env.NextRun job (w.now + max (w.heap m).Duration 0) with
                | Except.ok t => (t, timeAfter (Task.fire w m) (w.heap m).Duration)
                | Except.error err =>
                  (zeroTime, logPrint (timeAfter (Task.fire w m) (w.heap m).Duration)
                    (LogLine.nextRunError err))).1))
          m) := by
  have hd : ((Task.fire w m).heap m).Duration = (w.heap m).Duration := by
    simp [heap_Task_fire]
  have hj : ((timeAfter (Task.fire w m) (w.heap m).Duration).heap m).Job = some job := by
    simp [timeAfter, heap_Task_fire, hjob]
  have hn : (timeAfter (Task.fire w m) (w.heap m).Duration).now
      = w.now + max (w.heap m).Duration 0 := by
    simp [timeAfter, Task.fire, setActive, logTracef, World.modify, logPrint]
  have hname : ((timeAfter (Task.fire w m) (w.heap m).Duration).heap m).Name
      = (w.heap m).Name := by
    simp [timeAfter, heap_Task_fire]
  unfold Task
  simp only [hd]
  unfold Task.resume
  simp only [hj, hn, hname]

/-- The outcome of `Task` on a window whose job handle is nil. -/
theorem Task_panics_without_job (env : Env) (w : World) (m : Nat)
    (hjob : (w.heap m).Job = none) :
    Task env w m =
      Outcome.panic "invalid memory address or nil pointer dereference"
        (timeAfter (Task.fire w m) (w.heap m).Duration) := by
  have hd : ((Task.fire w m).heap m).Duration = (w.heap m).Duration := by
    simp [heap_Task_fire]
  have hj : ((timeAfter (Task.fire w m) (w.heap m).Duration).heap m).Job = none := by
    simp [timeAfter, heap_Task_fire, hjob]
  unfold Task
  simp only [hd]
  unfold Task.resume
  simp only [hj]

/-! ## The window controller -/

/-- C1: one activation of `Task` on a window (its job handle set, any duration, any
previous signal state) returns, and the trace it adds holds exactly two gauge writes,
`1` before the wait and `0` after it; `getGaugeValue` reads `1` when the wait begins and
when it ends, and `0` after the activation has returned. -/
theorem Task_sets_active_then_inactive (env : Env) (w : World) (m job : Nat)
    (hjob : (w.heap m).Job = some job) :
    ∃ w', Task env w m = Outcome.ok () w' ∧
      (∃ added, w'.events = w.events ++ added ∧
        gaugeWrites added = [(m, 1), (m, 0)] ∧
        signalTrace added =
          [Event.gaugeWrite m 1, Event.sleep (w.heap m).Duration, Event.gaugeWrite m 0]) ∧
      (getGaugeValue (Task.fire w m) m).1 = 1 ∧
      (getGaugeValue (timeAfter (Task.fire w m) (w.heap m).Duration) m).1 = 1 ∧
      (getGaugeValue w' m).1 = 0 := by
  refine ⟨_, Task_eq env w m job hjob, ?_, ?_, ?_, ?_⟩
  · cases hr : env.NextRun job (w.now + max (w.heap m).Duration 0) with
    | ok t =>
      refine ⟨[Event.log (LogLine.windowOpen (w.heap m).Name (w.now + (w.heap m).Duration)),
        Event.gaugeWrite m 1, Event.sleep (w.heap m).Duration,
        Event.log (LogLine.windowClosed (w.heap m).Name t), Event.gaugeWrite m 0], ?_, ?_, ?_⟩
      · simp [setInactive, logTracef, World.modify, logPrint, timeAfter, events_Task_fire]
      · simp [gaugeWrites]
      · simp [signalTrace]
    | error err =>
      refine ⟨[Event.log (LogLine.windowOpen (w.heap m).Name (w.now + (w.heap m).Duration)),
        Event.gaugeWrite m 1, Event.sleep (w.heap m).Duration,
        Event.log (LogLine.nextRunError err),
        Event.log (LogLine.windowClosed (w.heap m).Name zeroTime), Event.gaugeWrite m 0],
        ?_, ?_, ?_⟩
      · simp [setInactive, logTracef, World.modify, logPrint, timeAfter, events_Task_fire]
      · simp [gaugeWrites]
      · simp [signalTrace]
  · simp [getGaugeValue, logTracef, heap_Task_fire]
  · simp [getGaugeValue, logTracef, timeAfter, heap_Task_fire]
  · simp [getGaugeValue, logTracef, heap_setInactive]

/-- Witness of C1 on the ten-second window `db-maint` whose signal state was `7`. -/
theorem Task_sets_active_then_inactive_witness :
    ∃ w', Task exampleEnv (oneWindow 7) 0 = Outcome.ok () w' ∧
      (∃ added, w'.events = (oneWindow 7).events ++ added ∧
        gaugeWrites added = [(0, 1), (0, 0)] ∧
        signalTrace added =
          [Event.gaugeWrite 0 1, Event.sleep ((oneWindow 7).heap 0).Duration,
            Event.gaugeWrite 0 0]) ∧
      (getGaugeValue (Task.fire (oneWindow 7) 0) 0).1 = 1 ∧
      (getGaugeValue (timeAfter (Task.fire (oneWindow 7) 0)
        ((oneWindow 7).heap 0).Duration) 0).1 = 1 ∧
      (getGaugeValue w' 0).1 = 0 :=
  Task_sets_active_then_inactive exampleEnv (oneWindow 7) 0 0 rfl

/-- C2: on a window whose job handle is set, when the next-run lookup that `Task` makes
after the wait returns an error, the activation logs the error, returns without panic or
exit, and leaves the signal state at `0`; when the lookup succeeds it returns with the
signal state at `0` as well. -/
theorem Task_deactivates_when_lookup_fails (env : Env) (w : World) (m job : Nat)
    (hjob : (w.heap m).Job = some job) :
    (∀ err, env.NextRun job (w.now + max (w.heap m).Duration 0) = Except.error err →
      ∃ w', Task env w m = Outcome.ok () w' ∧
        Event.log (LogLine.nextRunError err) ∈ w'.events ∧
        (getGaugeValue w' m).1 = 0) ∧
    (∀ t, env.NextRun job (w.now + max (w.heap m).Duration 0) = Except.ok t →
      ∃ w', Task env w m = Outcome.ok () w' ∧ (getGaugeValue w' m).1 = 0) := by
  constructor
  · intro err herr
    refine ⟨_, Task_eq env w m job hjob, ?_, ?_⟩
    · simp [herr, setInactive, logTracef, World.modify, logPrint]
    · simp [getGaugeValue, logTracef, heap_setInactive]
  · intro t _
    refine ⟨_, Task_eq env w m job hjob, ?_⟩
    simp [getGaugeValue, logTracef, heap_setInactive]

/-- Witness of C2 with a scheduler whose lookups fail. -/
theorem Task_deactivates_when_lookup_fails_witness :
    ∃ w', Task lookupFailsEnv (oneWindow 1) 0 = Outcome.ok () w' ∧
      Event.log (LogLine.nextRunError "gocron: job not found") ∈ w'.events ∧
      (getGaugeValue w' 0).1 = 0 :=
  (Task_deactivates_when_lookup_fails lookupFailsEnv (oneWindow 1) 0 0 rfl).1
    "gocron: job not found" rfl

/-- C9: for two distinct windows `a` and `b`, `setActive`, `setInactive`, a whole `Task`
activation and `getGaugeValue` on `a` leave the signal state of `b` as it was;
`getGaugeValue` leaves the whole process state as it was, so a second read returns what
the first returned. -/
theorem signal_state_frame (env : Env) (w : World) (a b : Nat) (hab : a ≠ b) :
    (getGaugeValue (setActive w a) b).1 = (getGaugeValue w b).1 ∧
    (getGaugeValue (setInactive w a) b).1 = (getGaugeValue w b).1 ∧
    (getGaugeValue (Task env w a).world b).1 = (getGaugeValue w b).1 ∧
    (getGaugeValue (getGaugeValue w a).2 b).1 = (getGaugeValue w b).1 ∧
    (∀ c, (getGaugeValue w c).2 = w) ∧
    (∀ c, (getGaugeValue (getGaugeValue w c).2 c).1 = (getGaugeValue w c).1) := by
  have hba : ¬ b = a := fun h => hab h.symm
  refine ⟨?_, ?_, ?_, ?_, ?_, ?_⟩
  · simp [getGaugeValue, logTracef, heap_setActive, hba]
  · simp [getGaugeValue, logTracef, heap_setInactive, hba]
  · cases hj : (w.heap a).Job with
    | none =>
      rw [Task_panics_without_job env w a hj]
      simp [Outcome.world, getGaugeValue, logTracef, timeAfter, heap_Task_fire, hba]
    | some job =>
      rw [Task_eq env w a job hj]
      cases env.NextRun job (w.now + max (w.heap a).Duration 0) <;>
        simp [Outcome.world, getGaugeValue, logTracef, heap_setInactive, logPrint, timeAfter,
          heap_Task_fire, hba]
  · simp [getGaugeValue, logTracef]
  · intro c
    simp [getGaugeValue, logTracef]
  · intro c
    simp [getGaugeValue, logTracef]

/-- Witness of C9: an activation of `db-maint` while `backup` is active. -/
theorem signal_state_frame_witness :
    (getGaugeValue (Task exampleEnv (twoWindows 1) 0).world 1).1
      = (getGaugeValue (twoWindows 1) 1).1 :=
  (signal_state_frame exampleEnv (twoWindows 1) 0 1 (by decide)).2.2.1

/-! ## The paths through the construction -/

theorem NewMaintenanceWindow_resolved (env : Env) (w : World) (c d n cfgTz : String)
    (l0 : Entries) (z : Location) (hz : resolvedZone env cfgTz = Except.ok z) :
    NewMaintenanceWindow env w c d n cfgTz (some l0) =
      match env.NewGauge w.gauges (builtGaugeName env l0 n z) with
      | some msg =>
        Outcome.panic msg
          { heap := Function.update w.heap w.next (windowAtGauge c n l0 z),
            next := w.next + 1, gauges := w.gauges, jobs := w.jobs, started := w.started,
            now := w.now, events := w.events ++ [Event.gaugeWrite w.next 0] }
      | none =>
        match env.ParseDuration d with
        | Except.error err =>
          Outcome.ok (none, some err)
            { heap := Function.update w.heap w.next
                { windowAtGauge c n l0 z with Gauge := some (builtGaugeName env l0 n z) },
              next := w.next + 1,
              gauges := w.gauges ++ [(builtGaugeName env l0 n z, w.next)],
              jobs := w.jobs, started := w.started, now := w.now,
              events := w.events ++ [Event.gaugeWrite w.next 0,
                Event.log (LogLine.parseDurationError err)] }
        | Except.ok dur =>
          match env.NewJob (cronDefinition z c) with
          | some err =>
            Outcome.exit 1
              { heap := Function.update w.heap w.next
                  { windowAtGauge c n l0 z with
                    Gauge := some (builtGaugeName env l0 n z), Duration := dur },
                next := w.next + 1,
                gauges := w.gauges ++ [(builtGaugeName env l0 n z, w.next)],
                jobs := w.jobs, started := w.started, now := w.now,
                events := w.events ++ [Event.gaugeWrite w.next 0,
                  Event.log (LogLine.fatal err)] }
          | none =>
            match env.NextRun w.jobs.length w.now with
            | Except.error err =>
              Outcome.ok (none, some err)
                { heap := Function.update w.heap w.next
                    { windowAtGauge c n l0 z with
                      Gauge := some (builtGaugeName env l0 n z), Duration := dur },
                  next := w.next + 1,
                  gauges := w.gauges ++ [(builtGaugeName env l0 n z, w.next)],
                  jobs := w.jobs ++ [(w.jobs.length, w.next)], started := w.started,
                  now := w.now,
                  events := w.events ++ [Event.gaugeWrite w.next 0,
                    Event.log (LogLine.jobNextRunError w.jobs.length err)] }
            | Except.ok _ =>
              Outcome.ok (some w.next, none)
                { heap := Function.update w.heap w.next
                    { windowAtGauge c n l0 z with
                      Gauge := some (builtGaugeName env l0 n z), Duration := dur,
                      Job := some w.jobs.length },
                  next := w.next + 1,
                  gauges := w.gauges ++ [(builtGaugeName env l0 n z, w.next)],
                  jobs := w.jobs ++ [(w.jobs.length, w.next)], started := w.started,
                  now := w.now, events := w.events ++ [Event.gaugeWrite w.next 0] } := by
  unfold resolvedZone at hz
  by_cases hc : cfgTz = ""
  · simp only [hc, ne_eq, not_true_eq_false, if_false, Except.ok.injEq] at hz
    subst hz
    simp only [NewMaintenanceWindow, hc, ne_eq, not_true_eq_false, if_false]
    simp [World.modify, setInactive, logTracef, logPrint, locString, builtGaugeName,
      finalLabels, cronDefinition, windowAtGauge, zeroWindow]
  · simp only [hc, ne_eq, not_false_eq_true, if_true] at hz
    simp only [NewMaintenanceWindow, hc, ne_eq, not_false_eq_true, if_true, hz]
    simp [World.modify, setInactive, logTracef, logPrint, locString, builtGaugeName,
      finalLabels, cronDefinition, windowAtGauge, zeroWindow]

theorem NewMaintenanceWindow_unresolved (env : Env) (w : World) (c d n cfgTz : String)
    (l0 : Entries) (err : String) (hz : resolvedZone env cfgTz = Except.error err) :
    NewMaintenanceWindow env w c d n cfgTz (some l0) =
      Outcome.exit 1
        { heap := Function.update w.heap w.next
            { zeroWindow with Name := n, Labels := some (mapAssign l0 "name" n),
                              CronExpression := c, tz := none },
          next := w.next + 1, gauges := w.gauges, jobs := w.jobs, started := w.started,
          now := w.now, events := w.events ++ [Event.log (LogLine.fatal err)] } := by
  unfold resolvedZone at hz
  by_cases hc : cfgTz = ""
  · simp [hc] at hz
  · simp only [hc, ne_eq, not_false_eq_true, if_true] at hz
    simp only [NewMaintenanceWindow, hc, ne_eq, not_false_eq_true, if_true, hz]
    simp [World.modify, logPrint, zeroWindow]

theorem NewMaintenanceWindow_nil_map (env : Env) (w : World) (c d n cfgTz : String) :
    NewMaintenanceWindow env w c d n cfgTz none =
      Outcome.panic "assignment to entry in nil map" w := rfl

theorem gaugeNameLoop_eq (len : Nat) (xs : Entries) :
    ∀ (count : Nat) (acc : String), xs ≠ [] → count + xs.length = len →
      gaugeNameLoop len xs count acc = acc ++ joinComma (xs.map labelPair) ++ "\x7d" := by
  induction xs with
  | nil => intro _ _ h; exact absurd rfl h
  | cons hd tl ih =>
    intro count acc _ hlen
    obtain ⟨k, v⟩ := hd
    cases tl with
    | nil =>
      have h1 : count + 1 = len := by simpa using hlen
      simp [gaugeNameLoop, h1, joinComma, labelPair]
    | cons y rest =>
      have h1 : ¬ count + 1 = len := by
        simp only [List.length_cons] at hlen
        omega
      have h2 : count + 1 + (y :: rest).length = len := by
        simp only [List.length_cons] at hlen ⊢
        omega
      rw [gaugeNameLoop]
      simp only [h1, if_false]
      rw [ih (count + 1) _ (by simp) h2]
      simp [joinComma, labelPair, String.append_assoc]

theorem builtGaugeName_eq (env : Env) (hperm : env.RangeVisitsAll) (l0 : Entries)
    (n : String) (z : Location) :
    builtGaugeName env l0 n z = gaugeNameOf (env.rangeOrder (finalLabels l0 n z)) := by
  have hp := hperm (finalLabels l0 n z)
  have hne : env.rangeOrder (finalLabels l0 n z) ≠ [] := by
    intro h
    rw [h] at hp
    have := hp.symm.eq_nil
    exact mapAssign_ne_nil _ _ _ this
  unfold builtGaugeName gaugeNameOf
  rw [gaugeNameLoop_eq _ _ 0 _ hne (by simp [hp.length_eq])]

/-- A window that `NewMaintenanceWindow` returns: the path taken and the fields written. -/
theorem NewMaintenanceWindow_returns_window (env : Env) (w : World) (c d n cfgTz : String)
    (l : Option Entries) (p : Nat) (e : Option String) (w' : World)
    (h : NewMaintenanceWindow env w c d n cfgTz l = Outcome.ok (some p, e) w') :
    ∃ l0 z dur, l = some l0 ∧ resolvedZone env cfgTz = Except.ok z ∧
      env.ParseDuration d = Except.ok dur ∧ p = w.next ∧ e = none ∧
      w'.heap p =
        { windowAtGauge c n l0 z with
          Gauge := some (builtGaugeName env l0 n z), Duration := dur,
          Job := some w.jobs.length } ∧
      w'.gauges = w.gauges ++ [(builtGaugeName env l0 n z, w.next)] := by
  cases l with
  | none =>
    rw [NewMaintenanceWindow_nil_map] at h
    cases h
  | some l0 =>
    cases hz : resolvedZone env cfgTz with
    | error err =>
      rw [NewMaintenanceWindow_unresolved env w c d n cfgTz l0 err hz] at h
      cases h
    | ok z =>
      rw [NewMaintenanceWindow_resolved env w c d n cfgTz l0 z hz] at h
      cases hg : env.NewGauge w.gauges (builtGaugeName env l0 n z) with
      | some msg => simp [hg] at h
      | none =>
        cases hd : env.ParseDuration d with
        | error err => simp [hg, hd] at h
        | ok dur =>
          cases hj : env.NewJob (cronDefinition z c) with
          | some err => simp [hg, hd, hj] at h
          | none =>
            cases hn : env.NextRun w.jobs.length w.now with
            | error err => simp [hg, hd, hj, hn] at h
            | ok t =>
              simp only [hg, hd, hj, hn, Outcome.ok.injEq, Prod.mk.injEq, Option.some.injEq]
                at h
              obtain ⟨⟨hp, he⟩, hw⟩ := h
              subst hw
              subst hp
              exact ⟨l0, z, dur, rfl, rfl, rfl, rfl, he.symm, by simp, rfl⟩

/-- Every window that `NewMaintenanceWindow` returns has its job handle set. -/
theorem NewMaintenanceWindow_sets_job (env : Env) (w : World) (c d n cfgTz : String)
    (l : Option Entries) (p : Nat) (e : Option String) (w' : World)
    (h : NewMaintenanceWindow env w c d n cfgTz l = Outcome.ok (some p, e) w') :
    (w'.heap p).Job = some w.jobs.length := by
  obtain ⟨l0, z, dur, _, _, _, _, _, hw, _⟩ :=
    NewMaintenanceWindow_returns_window env w c d n cfgTz l p e w' h
  rw [hw]

/-- No path through `NewMaintenanceWindow` starts the scheduler. -/
theorem NewMaintenanceWindow_started (env : Env) (w : World) (c d n cfgTz : String)
    (l : Option Entries) :
    (NewMaintenanceWindow env w c d n cfgTz l).world.started = w.started := by
  cases l with
  | none => rfl
  | some l0 =>
    cases hz : resolvedZone env cfgTz with
    | error err =>
      rw [NewMaintenanceWindow_unresolved env w c d n cfgTz l0 err hz]
      rfl
    | ok z =>
      rw [NewMaintenanceWindow_resolved env w c d n cfgTz l0 z hz]
      cases env.NewGauge w.gauges (builtGaugeName env l0 n z) <;>
      cases env.ParseDuration d <;>
      cases env.NewJob (cronDefinition z c) <;>
      cases env.NextRun w.jobs.length w.now <;> rfl

/-- The zone of the window that `NewMaintenanceWindow` allocates, on every path on which
the zone resolves. -/
theorem NewMaintenanceWindow_zone (env : Env) (w : World) (c d n cfgTz : String)
    (l0 : Entries) (z : Location) (hz : resolvedZone env cfgTz = Except.ok z) :
    ((NewMaintenanceWindow env w c d n cfgTz (some l0)).world.heap w.next).tz = some z := by
  rw [NewMaintenanceWindow_resolved env w c d n cfgTz l0 z hz]
  cases env.NewGauge w.gauges (builtGaugeName env l0 n z) <;>
  cases env.ParseDuration d <;>
  cases env.NewJob (cronDefinition z c) <;>
  cases env.NextRun w.jobs.length w.now <;>
  simp [Outcome.world, windowAtGauge]

/-! ## Start-up lemmas -/

theorem constructWindows_started (env : Env) (xs : List MaintenanceWindowConfig) :
    ∀ (w : World) (acc : List (Option Nat)),
      (constructWindows env w xs acc).world.started = w.started := by
  induction xs with
  | nil => intro w acc; rfl
  | cons x rest ih =>
    intro w acc
    have hs := NewMaintenanceWindow_started env w x.Cron x.Duration x.Name x.Timezone x.Labels
    rw [constructWindows]
    cases hr : NewMaintenanceWindow env w x.Cron x.Duration x.Name x.Timezone x.Labels with
    | ok a w1 =>
      obtain ⟨m, err⟩ := a
      rw [hr] at hs
      simp only [Outcome.world] at hs
      simp only []
      rw [ih]
      cases err <;> simpa [logPrint] using hs
    | panic msg w1 =>
      rw [hr] at hs
      simpa [Outcome.world] using hs
    | exit code w1 =>
      rw [hr] at hs
      simpa [Outcome.world] using hs

theorem NewMaintenanceWindow_bad_zone (env : Env) (w : World) (c d n cfgTz err : String)
    (l : Option Entries) (hne : cfgTz ≠ "") (hload : env.LoadLocation cfgTz = Except.error err) :
    (NewMaintenanceWindow env w c d n cfgTz l).returned = false := by
  cases l with
  | none => rfl
  | some l0 =>
    have hz : resolvedZone env cfgTz = Except.error err := by
      simp [resolvedZone, hne, hload]
    rw [NewMaintenanceWindow_unresolved env w c d n cfgTz l0 err hz]
    rfl

theorem constructWindows_bad_zone (env : Env) (x : MaintenanceWindowConfig) (err : String)
    (hne : x.Timezone ≠ "") (hload : env.LoadLocation x.Timezone = Except.error err)
    (xs : List MaintenanceWindowConfig) :
    ∀ (w : World) (acc : List (Option Nat)), x ∈ xs →
      (constructWindows env w xs acc).returned = false := by
  induction xs with
  | nil => intro w acc hx; cases hx
  | cons y rest ih =>
    intro w acc hx
    rw [constructWindows]
    cases hr : NewMaintenanceWindow env w y.Cron y.Duration y.Name y.Timezone y.Labels with
    | panic msg w1 => rfl
    | exit code w1 => rfl
    | ok a w1 =>
      obtain ⟨m, e⟩ := a
      simp only []
      rcases List.mem_cons.1 hx with hxy | hxr
      · subst hxy
        have := NewMaintenanceWindow_bad_zone env w x.Cron x.Duration x.Name x.Timezone err
          x.Labels hne hload
        rw [hr] at this
        cases this
      · exact ih _ _ hxr

theorem main_bad_zone (env : Env) (w : World) (cfg : Config) (x : MaintenanceWindowConfig)
    (err : String) (hx : x ∈ cfg.Windows) (hne : x.Timezone ≠ "")
    (hload : env.LoadLocation x.Timezone = Except.error err) (hs : w.started = false) :
    (main env w cfg).returned = false ∧ (main env w cfg).world.started = false := by
  cases hsched : env.NewScheduler with
  | some e =>
    have hm : main env w cfg
        = Outcome.exit 1 (logPrint (logPrint w LogLine.banner) (LogLine.fatal e)) := by
      simp [main, hsched]
    rw [hm]
    exact ⟨rfl, by simpa [Outcome.world, logPrint] using hs⟩
  | none =>
    have h1 := constructWindows_bad_zone env x err hne hload cfg.Windows
      (logPrint w LogLine.banner) [] hx
    have h2 := constructWindows_started env cfg.Windows (logPrint w LogLine.banner) []
    cases hr : constructWindows env (logPrint w LogLine.banner) cfg.Windows [] with
    | ok a w1 =>
      rw [hr] at h1
      cases h1
    | panic msg w1 =>
      have hm : main env w cfg = Outcome.panic msg w1 := by
        simp [main, hsched, hr]
      rw [hr] at h2
      rw [hm]
      exact ⟨rfl, by simpa [Outcome.world, logPrint, hs] using h2⟩
    | exit code w1 =>
      have hm : main env w cfg = Outcome.exit code w1 := by
        simp [main, hsched, hr]
      rw [hr] at h2
      rw [hm]
      exact ⟨rfl, by simpa [Outcome.world, logPrint, hs] using h2⟩

/-! ## Construction: zones and labels -/

/-- C6: timezone resolution in `NewMaintenanceWindow`. With an empty per-window name the
window that is returned carries the process-wide default zone itself; with a non-empty name
that loads it carries the loaded zone; with a non-empty name that does not load the call
does not return (on an allocated label map it ends the process through `log.Fatal` with
exit status 1, the error logged), the scheduler is left as it was, and `main` run on a
configuration holding such a window never returns and never starts the scheduler. -/
theorem timezone_resolution (env : Env) (w : World) (c d n cfgTz : String)
    (l : Option Entries) :
    (cfgTz = "" → ∀ p e w',
      NewMaintenanceWindow env w c d n cfgTz l = Outcome.ok (some p, e) w' →
        (w'.heap p).tz = some env.tz) ∧
    (∀ z, cfgTz ≠ "" → env.LoadLocation cfgTz = Except.ok z → ∀ p e w',
      NewMaintenanceWindow env w c d n cfgTz l = Outcome.ok (some p, e) w' →
        (w'.heap p).tz = some z) ∧
    (∀ err, cfgTz ≠ "" → env.LoadLocation cfgTz = Except.error err →
      (NewMaintenanceWindow env w c d n cfgTz l).returned = false ∧
      (NewMaintenanceWindow env w c d n cfgTz l).world.started = w.started ∧
      (∀ l0, l = some l0 →
        ∃ w', NewMaintenanceWindow env w c d n cfgTz l = Outcome.exit 1 w' ∧
          Event.log (LogLine.fatal err) ∈ w'.events)) ∧
    (∀ (cfg : Config) (x : MaintenanceWindowConfig) (err : String),
      x ∈ cfg.Windows → x.Timezone ≠ "" → env.LoadLocation x.Timezone = Except.error err →
      w.started = false →
        (main env w cfg).returned = false ∧ (main env w cfg).world.started = false) := by
  refine ⟨?_, ?_, ?_, ?_⟩
  · intro hc p e w' h
    obtain ⟨l0, z, dur, _, hz, _, _, _, hw, _⟩ :=
      NewMaintenanceWindow_returns_window env w c d n cfgTz l p e w' h
    have : z = env.tz := by
      simp only [resolvedZone, hc, ne_eq, not_true_eq_false, if_false, Except.ok.injEq] at hz
      exact hz.symm
    rw [hw, ← this]
    rfl
  · intro z0 hc hload p e w' h
    obtain ⟨l0, z, dur, _, hz, _, _, _, hw, _⟩ :=
      NewMaintenanceWindow_returns_window env w c d n cfgTz l p e w' h
    have : z = z0 := by
      simp only [resolvedZone, hc, ne_eq, not_false_eq_true, if_true, hload,
        Except.ok.injEq] at hz
      exact hz.symm
    rw [hw, ← this]
    rfl
  · intro err hc hload
    refine ⟨NewMaintenanceWindow_bad_zone env w c d n cfgTz err l hc hload,
      NewMaintenanceWindow_started env w c d n cfgTz l, ?_⟩
    intro l0 hl
    subst hl
    have hz : resolvedZone env cfgTz = Except.error err := by
      simp [resolvedZone, hc, hload]
    exact ⟨_, NewMaintenanceWindow_unresolved env w c d n cfgTz l0 err hz, by simp⟩
  · intro cfg x err hx hne hload hs
    exact main_bad_zone env w cfg x err hx hne hload hs

/-- Witness of C6: default `UTC` with no override, the override `Europe/Amsterdam`, and
the override `Invalid/Zone`. -/
theorem timezone_resolution_witness :
    ((NewMaintenanceWindow exampleEnv World.initial "0 */1 * * * *" "10s" "db-maint" ""
        (some [])).world.heap 0).tz = some { name := "UTC" } ∧
    ((NewMaintenanceWindow exampleEnv World.initial "0 */1 * * * *" "10s" "db-maint"
        "Europe/Amsterdam" (some [])).world.heap 0).tz = some { name := "Europe/Amsterdam" } ∧
    (NewMaintenanceWindow exampleEnv World.initial "0 */1 * * * *" "10s" "lost"
        "Invalid/Zone" (some [])).returned = false ∧
    ((main exampleEnv World.initial
        { Config := exampleExporter, Windows := [dbMaint, badZone] }).returned = false ∧
      (main exampleEnv World.initial
        { Config := exampleExporter, Windows := [dbMaint, badZone] }).world.started = false) :=
  ⟨(timezone_resolution exampleEnv World.initial "0 */1 * * * *" "10s" "db-maint" ""
      (some [])).1 rfl 0 none _ rfl,
   (timezone_resolution exampleEnv World.initial "0 */1 * * * *" "10s" "db-maint"
      "Europe/Amsterdam" (some [])).2.1 { name := "Europe/Amsterdam" } (by decide) rfl
      0 none _ rfl,
   ((timezone_resolution exampleEnv World.initial "0 */1 * * * *" "10s" "lost"
      "Invalid/Zone" (some [])).2.2.1 "unknown time zone Invalid/Zone" (by decide) rfl).1,
   (timezone_resolution exampleEnv World.initial "" "" "" "" none).2.2.2
      { Config := exampleExporter, Windows := [dbMaint, badZone] } badZone
      "unknown time zone Invalid/Zone" (by simp) (by decide) rfl rfl⟩

/-- C7: the label map of a window that `NewMaintenanceWindow` returns reads, at every key,
as the supplied map with `name` set to `n` and `configured_timezone` set to the name of the
window's zone: both reserved keys are overwritten, every other key reads as supplied, and
a map with one entry per key stays one. -/
theorem labels_of_constructed_window (env : Env) (w : World) (c d n cfgTz : String)
    (l : Option Entries) (p : Nat) (e : Option String) (w' : World)
    (h : NewMaintenanceWindow env w c d n cfgTz l = Outcome.ok (some p, e) w') :
    ∃ l0 z labels, l = some l0 ∧ (w'.heap p).tz = some z ∧
      (w'.heap p).Labels = some labels ∧
      (∀ k, mapLookup labels k =
        if k = "configured_timezone" then some z.name
        else if k = "name" then some n else mapLookup l0 k) ∧
      ((l0.map Prod.fst).Nodup → (labels.map Prod.fst).Nodup) := by
  obtain ⟨l0, z, dur, hl, _, _, _, _, hw, _⟩ :=
    NewMaintenanceWindow_returns_window env w c d n cfgTz l p e w' h
  refine ⟨l0, z, finalLabels l0 n z, hl, by rw [hw]; rfl, by rw [hw]; rfl, ?_, ?_⟩
  · intro k
    unfold finalLabels
    by_cases h1 : k = "configured_timezone"
    · subst h1
      simp [mapLookup_mapAssign_self]
    · rw [mapLookup_mapAssign_ne _ _ _ _ h1]
      by_cases h2 : k = "name"
      · subst h2
        simp [mapLookup_mapAssign_self]
      · rw [mapLookup_mapAssign_ne _ _ _ _ h2]
        simp [h1, h2]
  · intro hnd
    exact nodup_keys_mapAssign _ _ _ (nodup_keys_mapAssign _ _ _ hnd)

/-- Witness of C7 on a supplied map that already holds both reserved keys. -/
theorem labels_of_constructed_window_witness :
    ∃ l0 z labels,
      some [("name", "x"), ("team", "dba"), ("configured_timezone", "y")] = some l0 ∧
      ((NewMaintenanceWindow exampleEnv World.initial "0 */1 * * * *" "10s" "db-maint" ""
        (some [("name", "x"), ("team", "dba"), ("configured_timezone", "y")])).world.heap 0).tz
        = some z ∧
      ((NewMaintenanceWindow exampleEnv World.initial "0 */1 * * * *" "10s" "db-maint" ""
        (some [("name", "x"), ("team", "dba"), ("configured_timezone", "y")])).world.heap
        0).Labels = some labels ∧
      (∀ k, mapLookup labels k =
        if k = "configured_timezone" then some z.name
        else if k = "name" then some "db-maint" else mapLookup l0 k) ∧
      ((l0.map Prod.fst).Nodup → (labels.map Prod.fst).Nodup) :=
  labels_of_constructed_window exampleEnv World.initial "0 */1 * * * *" "10s" "db-maint" ""
    (some [("name", "x"), ("team", "dba"), ("configured_timezone", "y")]) 0 none _ rfl

/-! ## Construction: job registration and the metric set -/

/-- C4, as stated, fails: with a scheduler that rejects the cron definition,
`NewMaintenanceWindow` returns nothing to its caller; the process exits. -/
theorem rejected_job_is_not_returned :
    rejectingEnv.NewJob (cronDefinition { name := "UTC" } "every minute")
      = some "gocron: CronJob: crontab parse failure: CRON_TZ=UTC every minute" ∧
    (NewMaintenanceWindow rejectingEnv World.initial "every minute" "10s" "db-maint" ""
      (some [])).value = none ∧
    (NewMaintenanceWindow rejectingEnv World.initial "every minute" "10s" "db-maint" ""
      (some [])).exited = true := by
  refine ⟨rfl, rfl, rfl⟩

/-- C4, amended: when the construction reaches the registration of the job (the label map
is allocated, the zone resolves, the gauge registers, the duration parses) and `s.NewJob`
returns an error, `NewMaintenanceWindow` logs the error through `log.Fatalf` and the
process exits with status 1; nothing is returned and the scheduler is not started. -/
theorem NewMaintenanceWindow_exits_when_job_rejected (env : Env) (w : World)
    (c d n cfgTz : String) (l0 : Entries) (z : Location) (dur : Int) (err : String)
    (hz : resolvedZone env cfgTz = Except.ok z)
    (hg : env.NewGauge w.gauges (builtGaugeName env l0 n z) = none)
    (hd : env.ParseDuration d = Except.ok dur)
    (hj : env.NewJob ("CRON_TZ=" ++ z.name ++ " " ++ c) = some err) :
    ∃ w', NewMaintenanceWindow env w c d n cfgTz (some l0) = Outcome.exit 1 w' ∧
      Event.log (LogLine.fatal err) ∈ w'.events ∧ w'.started = w.started ∧
      w'.jobs = w.jobs := by
  have hj' : env.NewJob (cronDefinition z c) = some err := hj
  rw [NewMaintenanceWindow_resolved env w c d n cfgTz l0 z hz]
  simp only [hg, hd, hj']
  exact ⟨_, rfl, by simp, rfl, rfl⟩

/-- Witness of C4 amended, with a scheduler that rejects every cron definition. -/
theorem NewMaintenanceWindow_exits_when_job_rejected_witness :
    ∃ w', NewMaintenanceWindow rejectingEnv World.initial "every minute" "10s" "db-maint" ""
        (some []) = Outcome.exit 1 w' ∧
      Event.log (LogLine.fatal
        "gocron: CronJob: crontab parse failure: CRON_TZ=UTC every minute") ∈ w'.events ∧
      w'.started = World.initial.started ∧ w'.jobs = World.initial.jobs :=
  NewMaintenanceWindow_exits_when_job_rejected rejectingEnv World.initial "every minute"
    "10s" "db-maint" "" [] { name := "UTC" } 10000000000
    "gocron: CronJob: crontab parse failure: CRON_TZ=UTC every minute" rfl rfl rfl rfl

/-- C5, evaluated: a window dropped for its duration `abc`, and a window dropped because
the next-run lookup at construction fails, both leave a gauge in the metric set, which
was empty before the call. -/
theorem dropped_window_keeps_its_gauge :
    World.initial.gauges = [] ∧
    (NewMaintenanceWindow exampleEnv World.initial "0 */1 * * * *" "abc" "broken" ""
      (some [])).value = some (none, some "time: invalid duration abc") ∧
    (NewMaintenanceWindow exampleEnv World.initial "0 */1 * * * *" "abc" "broken" ""
      (some [])).world.gauges
      = [("maintenance_active\x7bname=\"broken\",configured_timezone=\"UTC\"\x7d", 0)] ∧
    (NewMaintenanceWindow lookupFailsEnv World.initial "0 */1 * * * *" "10s" "db-maint" ""
      (some [])).value = some (none, some "gocron: job not found") ∧
    (NewMaintenanceWindow lookupFailsEnv World.initial "0 */1 * * * *" "10s" "db-maint" ""
      (some [])).world.gauges
      = [("maintenance_active\x7bname=\"db-maint\",configured_timezone=\"UTC\"\x7d", 0)] := by
  refine ⟨rfl, rfl, rfl, rfl, rfl⟩

/-- C8, as stated, fails: two runs that visit the same label map in different orders,
each visiting every entry once, register different gauge names for the same window
definition, and the keys of one of them are not in sorted order. -/
theorem gauge_name_depends_on_range_order :
    exampleEnv.RangeVisitsAll ∧ reversedEnv.RangeVisitsAll ∧
    (NewMaintenanceWindow exampleEnv World.initial "0 */1 * * * *" "10s" "db-maint" ""
      (some [("team", "dba")])).world.gauges
      = [("maintenance_active\x7bteam=\"dba\",name=\"db-maint\",configured_timezone=\"UTC\"\x7d",
          0)] ∧
    (NewMaintenanceWindow reversedEnv World.initial "0 */1 * * * *" "10s" "db-maint" ""
      (some [("team", "dba")])).world.gauges
      = [("maintenance_active\x7bconfigured_timezone=\"UTC\",name=\"db-maint\",team=\"dba\"\x7d",
          0)] ∧
    keysSorted [("team", "dba"), ("name", "db-maint"), ("configured_timezone", "UTC")]
      = false := by
  refine ⟨fun es => List.Perm.refl es, fun es => List.reverse_perm es, rfl, rfl, ?_⟩
  decide

/-- C8, amended: when `range` visits every entry of a map once, the gauge of a window that
`NewMaintenanceWindow` returns is registered under the opening `maintenance_active` and
brace, one `key="value"` pair per entry of the window's label map in the order in which
`range` visits them, commas between the pairs, and the closing brace. -/
theorem gauge_name_in_range_order (env : Env) (hperm : env.RangeVisitsAll) (w : World)
    (c d n cfgTz : String) (l : Option Entries) (p : Nat) (e : Option String) (w' : World)
    (h : NewMaintenanceWindow env w c d n cfgTz l = Outcome.ok (some p, e) w') :
    ∃ labels, (w'.heap p).Labels = some labels ∧
      (env.rangeOrder labels).Perm labels ∧
      (w'.heap p).Gauge = some (gaugeNameOf (env.rangeOrder labels)) ∧
      w'.gauges = w.gauges ++ [(gaugeNameOf (env.rangeOrder labels), p)] := by
  obtain ⟨l0, z, dur, _, _, _, hp, _, hw, hg⟩ :=
    NewMaintenanceWindow_returns_window env w c d n cfgTz l p e w' h
  refine ⟨finalLabels l0 n z, by rw [hw]; rfl, hperm _, ?_, ?_⟩
  · rw [hw, builtGaugeName_eq env hperm]
  · rw [hg, builtGaugeName_eq env hperm, hp]

/-- Witness of C8 amended, with a `range` that visits the entries in reverse. -/
theorem gauge_name_in_range_order_witness :
    ∃ labels,
      ((NewMaintenanceWindow reversedEnv World.initial "0 */1 * * * *" "10s" "db-maint" ""
        (some [("team", "dba")])).world.heap 0).Labels = some labels ∧
      (reversedEnv.rangeOrder labels).Perm labels ∧
      ((NewMaintenanceWindow reversedEnv World.initial "0 */1 * * * *" "10s" "db-maint" ""
        (some [("team", "dba")])).world.heap 0).Gauge
        = some (gaugeNameOf (reversedEnv.rangeOrder labels)) ∧
      (NewMaintenanceWindow reversedEnv World.initial "0 */1 * * * *" "10s" "db-maint" ""
        (some [("team", "dba")])).world.gauges
        = World.initial.gauges ++ [(gaugeNameOf (reversedEnv.rangeOrder labels), 0)] :=
  gauge_name_in_range_order reversedEnv (fun es => List.reverse_perm es) World.initial
    "0 */1 * * * *" "10s" "db-maint" "" (some [("team", "dba")]) 0 none _ rfl

/-- C10, evaluated: on a window definition without labels, whose map is nil,
`NewMaintenanceWindow` panics at the write of the `name` label, no window is built, and
`main` ends in that panic before the scheduler is started. -/
theorem nil_label_map_panics :
    NewMaintenanceWindow exampleEnv World.initial noLabels.Cron noLabels.Duration
      noLabels.Name noLabels.Timezone noLabels.Labels
      = Outcome.panic "assignment to entry in nil map" World.initial ∧
    (main exampleEnv World.initial
      { Config := exampleExporter, Windows := [noLabels] }).panicked = true ∧
    (main exampleEnv World.initial
      { Config := exampleExporter, Windows := [noLabels] }).world.started = false := by
  refine ⟨rfl, rfl, rfl⟩

/-! ## Start-up: the registry -/

/-- C3, evaluated: with the windows `broken` (duration `abc`) and `db-maint`, the slice
`maintenanceWindows` that `main` builds is a nil pointer followed by the address of
`db-maint`; the start-up report then panics on the nil entry, after the scheduler was
started and before any report line was written. -/
theorem unparsable_duration_leaves_nil_entry :
    (constructWindows exampleEnv (logPrint World.initial LogLine.banner)
      [badDuration, dbMaint] []).value = some [none, some 1] ∧
    (main exampleEnv World.initial
      { Config := exampleExporter, Windows := [badDuration, dbMaint] }).panicked = true ∧
    (main exampleEnv World.initial
      { Config := exampleExporter, Windows := [badDuration, dbMaint] }).world.started = true ∧
    reportedWindows (main exampleEnv World.initial
      { Config := exampleExporter, Windows := [badDuration, dbMaint] }).world.events = [] := by
  refine ⟨rfl, rfl, rfl, rfl⟩

end MaintenanceExporter
